import Mathlib

/-!
Verification of the SmarterStarts consultation backend (src/app.py) against
its natural-language specification.

The development shallow-embeds the Python code of app.py:

* the tool-name extractor inside recommend_tools (app.py lines 157-160),
  including the exact semantics of the Python regular expression
  (digits, a dot, greedy-with-backtracking whitespace, then a maximal run
  of characters from the allowed class) applied to each stripped line;
* the Gemini wrapper recommend_tools with its hard-coded fallback
  (lines 147-178), with the outcome of the external generation call made
  an explicit parameter (none = transport error, missing response or
  missing text attribute; some t = a response whose text is t);
* the three sink adapters save_to_firestore, append_to_sheet,
  send_admin_alert (lines 74-103, 184-220), each of which catches every
  exception of its own body and merely logs it;
* the two Flask handlers recommend_api and submit_feedback
  (lines 231-295), as functions from the parse outcome of the request
  body and the injected external-failure behaviour to the HTTP status,
  the response payload and a trace of events in execution order.

Digits and whitespace are modelled over their ASCII ranges, matching the
behaviour of the Python code on ASCII input; every character class below
is copied from the source.
-/

/-- The whitespace set of Python str.strip and of the regex class \s,
restricted to ASCII. -/
def isPyWS (c : Char) : Bool :=
  c = ' ' || c = '\t' || c = '\n' || c = '\r' || c = '\x0b' || c = '\x0c'

/-- The character class of the capture group in app.py line 158:
[A-Za-z0-9 &+_:\-–—()./] . Note that the dash-class separators and the
colon are themselves inside the class. -/
def nameClass (c : Char) : Bool :=
  c.isAlpha || c.isDigit || c = ' ' || c = '&' || c = '+' || c = '_' ||
  c = ':' || c = '-' || c = '–' || c = '—' || c = '(' || c = ')' ||
  c = '.' || c = '/'

/-- Python str.strip(): drop whitespace from both ends. -/
def pyStrip (l : List Char) : List Char :=
  ((l.dropWhile isPyWS).reverse.dropWhile isPyWS).reverse

/-- Python text.split over a single newline separator: keeps empty pieces,
and the split of the empty string is one empty piece. -/
def splitNl : List Char → List (List Char)
  | [] => [[]]
  | c :: rest =>
    let r := splitNl rest
    if c = '\n' then [] :: r else (c :: r.headD []) :: r.tail

/-- Attempt to start the capture group at offset k of the text following
the literal dot: succeeds when a class character stands there and then
captures the maximal run of class characters. -/
def grp (rest : List Char) (k : Nat) : Option (List Char) :=
  match rest.drop k with
  | [] => none
  | c :: cs => if nameClass c then some (c :: cs.takeWhile nameClass) else none

/-- Greedy backtracking of the \s* element: try the largest whitespace
prefix first, then give characters back one at a time. -/
def backtrack (rest : List Char) : Nat → Option (List Char)
  | 0 => grp rest 0
  | k + 1 =>
    match grp rest (k + 1) with
    | some g => some g
    | none => backtrack rest k

/-- re.match of the pattern from app.py line 158 on an already stripped
line, returning the capture group. The \d+ element is deterministic:
only the maximal digit run can be followed by the literal dot, because a
shorter run would leave a digit where the dot is required. -/
def matchLine (l : List Char) : Option (List Char) :=
  if (l.takeWhile Char.isDigit).isEmpty then none
  else
    let r := l.dropWhile Char.isDigit
    if r.head? = some '.' then
      backtrack r.tail ((r.tail.takeWhile isPyWS).length)
    else none

/-- One loop iteration of app.py lines 157-160: strip the line, match,
and strip the captured group. -/
def extractLine (line : List Char) : Option (List Char) :=
  (matchLine (pyStrip line)).map pyStrip

/-- The tool-name extractor of app.py lines 157-160: split into lines and
collect the captured names in input order. -/
def extract (text : List Char) : List (List Char) :=
  (splitNl text).filterMap extractLine

/-- String-level wrapper of the extractor. -/
def extractS (s : String) : List String :=
  (extract s.data).map String.mk

/-- The hard-coded fallback text of app.py lines 170-176, including its
leading and trailing newline. -/
def fallbackText : String :=
  "\n1. ClickUp – All-in-one project management.\n2. HubSpot – CRM & marketing automation.\n3. Notion – Team workspace.\n4. Asana – Workflow management.\n5. Zoho Projects – Affordable suite.\n"

/-- The dictionary returned by recommend_tools: raw text plus parsed tool
names. -/
structure GenOut where
  text : String
  tools : List String
deriving DecidableEq, Repr

/-- The fallback dictionary of app.py lines 169-178. -/
def fallbackOut : GenOut :=
  { text := fallbackText,
    tools := ["ClickUp", "HubSpot", "Notion", "Asana", "Zoho Projects"] }

/-- String-level strip. -/
def pyStripS (s : String) : String := String.mk (pyStrip s.data)

/-- recommend_tools of app.py lines 126-178. The outcome of the external
generation call is the parameter: none stands for a transport error, a
missing response or a missing text attribute, some raw for a response
whose text is raw. An empty stripped text raises inside the try block;
every raised exception lands in the except branch, which returns the
fallback dictionary. -/
def recommend_tools (gen : Option String) : GenOut :=
  match gen with
  | none => fallbackOut
  | some raw =>
    if pyStripS raw = "" then fallbackOut
    else { text := pyStripS raw, tools := extractS (pyStripS raw) }

/-- The generator contract of spec section 4.1, written from the words of
the spec for comparison with recommend_tools: it additionally reports an
ok flag, false exactly on the failure branch. -/
def generateSpec (gen : Option String) : GenOut × Bool :=
  match gen with
  | none => (fallbackOut, false)
  | some raw =>
    if pyStripS raw = "" then (fallbackOut, false)
    else ({ text := pyStripS raw, tools := extractS (pyStripS raw) }, true)

/-- Whether the generation outcome is one the code treats as a failure. -/
def genFails (gen : Option String) : Bool :=
  match gen with
  | none => true
  | some raw => pyStripS raw == ""

/-- A spreadsheet cell: the code appends both strings and the raw rating
value. -/
inductive Cell where
  | str (s : String)
  | nat (n : Nat)
deriving DecidableEq, Repr

/-- The nested user dictionary of a session. The budget key is read with
a defaulting get in append_to_sheet, hence optional here. -/
structure User where
  name : String
  email : String
  company_size : String
  budget : Option String
deriving DecidableEq, Repr

/-- A session dictionary as the sinks consume it. Every field is optional
because the submit_feedback handler passes the raw request body straight
to the sinks; the fields read with a bare indexing operation raise a
KeyError inside the sink when absent. -/
structure Session where
  user : Option User
  problem : Option String
  recommendations : Option String
  selected_tools : Option (List String)
  rating : Option Nat
  user_feedback : Option String
  status : Option String
  createdAt : Option String
deriving DecidableEq, Repr

/-- Python str(x)[:500]. -/
def truncate500 (s : String) : String := String.mk (s.data.take 500)

/-- The rating cell: the raw value when present, the default empty string
otherwise (app.py line 85). -/
def ratingCell : Option Nat → Cell
  | some n => .nat n
  | none => .str ""

/-- The row built by append_to_sheet (app.py lines 77-89). Returns none
when the bare access data[user] raises a KeyError. -/
def sheetRow (d : Session) : Option (List Cell) :=
  match d.user with
  | none => none
  | some u =>
    some [Cell.str u.name,
          Cell.str u.email,
          Cell.str u.company_size,
          Cell.str (u.budget.getD ""),
          Cell.str (d.problem.getD ""),
          Cell.str (String.intercalate ", " (d.selected_tools.getD [])),
          Cell.str (truncate500 (d.recommendations.getD "")),
          ratingCell d.rating,
          Cell.str (d.user_feedback.getD ""),
          Cell.str (d.createdAt.getD ""),
          Cell.str (d.status.getD "Pending Consultation")]

/-- The content determinants of the admin alert built by send_admin_alert
(app.py lines 191-211): the substituted fields of the message. -/
structure EmailMsg where
  subject : String
  name : String
  email : String
  company_size : String
  problem : String
  selected_tools_joined : String
  rating_disp : String
  feedback_disp : String
  createdAt : String
deriving DecidableEq, Repr

/-- The three sink adapters. -/
inductive SinkId where
  | persist
  | sheet
  | email
deriving DecidableEq, Repr

/-- What one wrapped sink call produced: its effect, or the locally
logged message of the exception its except branch caught. -/
inductive SinkResult (α : Type) where
  | done (a : α)
  | logged (msg : String)
deriving DecidableEq, Repr

/-- Body of save_to_firestore (app.py lines 98-103) before its except
branch: persists the record as given; the fail flag injects an external
service failure. -/
def persistBody (d : Session) (fail : Bool) : Except String Session :=
  if fail then .error "Firestore save failed" else .ok d

/-- Body of append_to_sheet (app.py lines 76-92) before its except
branch: builds the row (a KeyError when the user key is absent), then
performs the append call, which the fail flag can make raise. -/
def sheetBody (d : Session) (fail : Bool) : Except String (List Cell) :=
  match sheetRow d with
  | none => .error "KeyError: user"
  | some row => if fail then .error "Error syncing to Google Sheet" else .ok row

/-- Body of send_admin_alert (app.py lines 186-218) before its except
branch: the message substitutes the bare accesses data[user], data[problem],
data[createdAt] (KeyError when absent) and the defaulting reads of the
selected tools, the rating (default N/A) and the feedback (default N/A);
the fail flag injects an SMTP failure. -/
def emailBody (d : Session) (fail : Bool) : Except String EmailMsg :=
  match d.user, d.problem, d.createdAt with
  | some u, some p, some c =>
    if fail then .error "Email alert failed"
    else
      .ok { subject := "🚀 New SmarterStarts Consultation – " ++ u.name,
            name := u.name,
            email := u.email,
            company_size := u.company_size,
            problem := p,
            selected_tools_joined :=
              String.intercalate ", " (d.selected_tools.getD []),
            rating_disp :=
              match d.rating with
              | some n => toString n
              | none => "N/A",
            feedback_disp := d.user_feedback.getD "N/A",
            createdAt := c }
  | _, _, _ => .error "KeyError"

/-- Events in execution order inside a handler. -/
inductive Ev where
  | genCall
  | sinkStart (i : SinkId)
  | sinkEnd (i : SinkId)
  | respond
deriving DecidableEq, Repr

/-- The try and except wrapper every sink carries: the call always starts
and always returns (the except branch catches everything and only logs),
so the wrapped sink is a total function. -/
def runSink {α : Type} (i : SinkId) (body : Except String α) :
    List Ev × SinkResult α :=
  ([.sinkStart i, .sinkEnd i],
   match body with
   | .ok a => .done a
   | .error m => .logged m)

/-- save_to_firestore with its except branch (app.py lines 98-103). -/
def save_to_firestore (d : Session) (fail : Bool) :
    List Ev × SinkResult Session :=
  runSink .persist (persistBody d fail)

/-- append_to_sheet with its except branch (app.py lines 74-92). -/
def append_to_sheet (d : Session) (fail : Bool) :
    List Ev × SinkResult (List Cell) :=
  runSink .sheet (sheetBody d fail)

/-- send_admin_alert with its except branch (app.py lines 184-220). -/
def send_admin_alert (d : Session) (fail : Bool) :
    List Ev × SinkResult EmailMsg :=
  runSink .email (emailBody d fail)

/-- The outcome of the three sequential sink calls of a handler. -/
structure FanoutOut where
  trace : List Ev
  persistRes : SinkResult Session
  sheetRes : SinkResult (List Cell)
  emailRes : SinkResult EmailMsg
deriving DecidableEq, Repr

/-- The sink fan-out exactly as the handlers execute it (app.py lines
265-267 and 287-289): the three wrapped calls, one after the other, on
the request-handling thread. -/
def fanout (d : Session) (fail : SinkId → Bool) : FanoutOut :=
  let r1 := save_to_firestore d (fail .persist)
  let r2 := append_to_sheet d (fail .sheet)
  let r3 := send_admin_alert d (fail .email)
  { trace := r1.1 ++ r2.1 ++ r3.1,
    persistRes := r1.2,
    sheetRes := r2.2,
    emailRes := r3.2 }

/-- The parsed JSON body of a recommend request; every field is read with
a defaulting get in the handler, hence optional. -/
structure JsonBody where
  problem : Option String
  name : Option String
  email : Option String
  company_size : Option String
  budget : Option String
deriving DecidableEq, Repr

/-- A body that parses as a JSON object with every field missing. -/
def emptyBody : JsonBody := ⟨none, none, none, none, none⟩

/-- The session record built by recommend_api (app.py lines 249-263). -/
def buildSession (b : JsonBody) (out : GenOut) (now : String) : Session :=
  { user := some { name := b.name.getD "",
                   email := b.email.getD "",
                   company_size := b.company_size.getD "",
                   budget := some (b.budget.getD "") },
    problem := some (b.problem.getD ""),
    recommendations := some out.text,
    selected_tools := some [],
    rating := some 0,
    user_feedback := some "",
    status := some "Pending Consultation",
    createdAt := some now }

/-- The JSON payload of the recommend route. -/
inductive RecResponse where
  | success (recommendations : String) (tool_names : List String)
  | error (message : String)
deriving DecidableEq, Repr

/-- One execution of the recommend handler: the event trace, the HTTP
status code, the payload, the session record handed to the sinks, and
the sink outcomes. -/
structure RecRun where
  trace : List Ev
  httpCode : Nat
  response : RecResponse
  session : Option Session
  sinks : Option FanoutOut
deriving DecidableEq, Repr

/-- recommend_api (app.py lines 231-277). The parse parameter is the
outcome of request.get_json plus the attribute accesses on its result:
ok b when the body parses to a JSON object, error m when parsing or
attribute access raises with message m, which the except branch of the
handler turns into HTTP 500. On a parsed body the handler never raises:
generation failures are absorbed by the fallback and each sink catches
its own exceptions, so the handler always responds 200. -/
def recommend_api (parse : Except String JsonBody) (gen : Option String)
    (now : String) (fail : SinkId → Bool) : RecRun :=
  match parse with
  | .error m =>
    { trace := [.respond], httpCode := 500, response := .error m,
      session := none, sinks := none }
  | .ok b =>
    let out := recommend_tools gen
    let s := buildSession b out now
    let f := fanout s fail
    { trace := .genCall :: f.trace ++ [.respond],
      httpCode := 200,
      response := .success out.text out.tools,
      session := some s,
      sinks := some f }

/-- The JSON payload of the feedback route. -/
inductive FbResponse where
  | success (message : String)
  | error (message : String)
deriving DecidableEq, Repr

/-- One execution of the feedback handler. -/
structure FbRun where
  trace : List Ev
  httpCode : Nat
  response : FbResponse
  sinks : Option FanoutOut
deriving DecidableEq, Repr

/-- submit_feedback (app.py lines 280-295): passes the raw parsed body to
the same three wrapped sinks and answers 200 unless parsing itself
raised. -/
def submit_feedback (parse : Except String Session) (fail : SinkId → Bool) :
    FbRun :=
  match parse with
  | .error m =>
    { trace := [.respond], httpCode := 500, response := .error m,
      sinks := none }
  | .ok d =>
    let f := fanout d fail
    { trace := f.trace ++ [.respond],
      httpCode := 200,
      response := .success "Feedback saved successfully!",
      sinks := some f }

/-- The events a handler run produced before it responded. -/
def beforeRespond (t : List Ev) : List Ev :=
  t.takeWhile (fun e => decide (e ≠ Ev.respond))

/-- The decimal digit character of a value below ten. -/
def digitChar (n : Nat) : Char :=
  if n = 0 then '0' else if n = 1 then '1' else if n = 2 then '2'
  else if n = 3 then '3' else if n = 4 then '4' else if n = 5 then '5'
  else if n = 6 then '6' else if n = 7 then '7' else if n = 8 then '8'
  else '9'

/-- Fuelled accumulator loop producing the decimal digits of a number. -/
def natCharsAux : Nat → Nat → List Char → List Char
  | 0, _, acc => acc
  | fuel + 1, n, acc =>
    if n < 10 then digitChar n :: acc
    else natCharsAux fuel (n / 10) (digitChar (n % 10) :: acc)

/-- The decimal digit characters of a number. -/
def natChars (n : Nat) : List Char := natCharsAux (n + 1) n []

/-- The numbered lines of the reconstruction named by the idempotence
property of spec section 8: line i is the decimal numeral of i, a dot, a
space and the name. -/
def numberedLines : Nat → List (List Char) → List (List Char)
  | _, [] => []
  | k, n :: ns => (natChars k ++ '.' :: ' ' :: n) :: numberedLines (k + 1) ns

/-- Join pieces with single newlines, the inverse shape of splitNl. -/
def joinNl : List (List Char) → List Char
  | [] => []
  | [l] => l
  | l :: ls => l ++ '\n' :: joinNl ls

/-- The newline-joined, numbered reconstruction of an extracted list. -/
def reconstruct (ns : List (List Char)) : List Char :=
  joinNl (numberedLines 1 ns)

/-- String-level reconstruction. -/
def reconstructS (ns : List String) : String :=
  String.mk (reconstruct (ns.map String.data))

/-- A captured name as the extractor can re-consume it: nonempty, made of
class characters only, with no whitespace at either end. -/
def goodName (n : List Char) : Prop :=
  n ≠ [] ∧ (∀ c ∈ n, nameClass c = true) ∧
  (∀ c, n.head? = some c → isPyWS c = false) ∧
  (∀ c, n.getLast? = some c → isPyWS c = false)

/-- A fully populated session, used to instantiate universally quantified
statements at a concrete input. -/
def sampleSession : Session :=
  { user := some { name := "Ada", email := "ada@example.com",
                   company_size := "SMB", budget := some "100" },
    problem := some "tracking leads",
    recommendations := some "1. Acme CRM - great tool",
    selected_tools := some ["A", "B"],
    rating := some 4,
    user_feedback := some "nice",
    status := some "Pending Consultation",
    createdAt := some "2025-10-24T17:00:00Z" }

theorem splitNl_ne_nil : ∀ l : List Char, splitNl l ≠ []
  | [] => by simp [splitNl]
  | c :: rest => by
    simp only [splitNl]
    split <;> simp

theorem splitNl_head_pre : ∀ (l : List Char) (q : List Char)
    (qs : List (List Char)), splitNl l = q :: qs → q <+: l := by
  intro l
  induction l with
  | nil =>
    intro q qs h
    simp only [splitNl, List.cons.injEq] at h
    exact h.1 ▸ List.nil_prefix
  | cons c rest ih =>
    intro q qs h
    by_cases hc : c = '\n'
    · simp only [splitNl, if_pos hc, List.cons.injEq] at h
      exact h.1 ▸ List.nil_prefix
    · cases hsr : splitNl rest with
      | nil => exact absurd hsr (splitNl_ne_nil rest)
      | cons p ps =>
        simp only [splitNl, if_neg hc, hsr, List.headD_cons, List.tail_cons,
          List.cons.injEq] at h
        exact h.1 ▸ List.cons_prefix_cons.mpr ⟨rfl, ih p ps hsr⟩

theorem mem_splitNl_within : ∀ (l p : List Char), p ∈ splitNl l → p <:+: l := by
  intro l
  induction l with
  | nil =>
    intro p hp
    simp only [splitNl, List.mem_singleton] at hp
    simp [hp]
  | cons c rest ih =>
    intro p hp
    by_cases hc : c = '\n'
    · simp only [splitNl, if_pos hc] at hp
      rcases List.mem_cons.mp hp with h | h
      · simp [h]
      · exact List.infix_cons (ih p h)
    · cases hsr : splitNl rest with
      | nil => exact absurd hsr (splitNl_ne_nil rest)
      | cons q qs =>
        simp only [splitNl, if_neg hc, hsr, List.headD_cons, List.tail_cons]
          at hp
        rcases List.mem_cons.mp hp with h | h
        · subst h
          exact List.IsPrefix.isInfix
            (List.cons_prefix_cons.mpr ⟨rfl, splitNl_head_pre rest q qs hsr⟩)
        · exact List.infix_cons (ih p (hsr ▸ List.mem_cons_of_mem q h))

theorem head_dropWhile_false {α : Type} (p : α → Bool) :
    ∀ (l : List α) (c : α), (l.dropWhile p).head? = some c → p c = false := by
  intro l
  induction l with
  | nil => intro c h; simp at h
  | cons a t ih =>
    intro c h
    by_cases ha : p a
    · rw [List.dropWhile_cons_of_pos ha] at h
      exact ih c h
    · rw [List.dropWhile_cons_of_neg ha] at h
      simp only [List.head?_cons, Option.some.injEq] at h
      subst h
      exact Bool.not_eq_true _ ▸ Bool.of_not_eq_true ha

theorem rstrip_pre (m : List Char) :
    (m.reverse.dropWhile isPyWS).reverse <+: m := by
  have h1 : m.reverse.dropWhile isPyWS <:+ m.reverse :=
    List.dropWhile_suffix _
  have h2 := ( List.reverse_prefix).mpr h1
  simpa using h2

theorem pyStrip_within (l : List Char) : pyStrip l <:+: l :=
  List.IsInfix.trans ( List.IsPrefix.isInfix (rstrip_pre (l.dropWhile isPyWS)))
    ( List.IsSuffix.isInfix (List.dropWhile_suffix _))

theorem pyStrip_head_not_ws (l : List Char) (c : Char) (t : List Char)
    (h : pyStrip l = c :: t) : isPyWS c = false := by
  obtain ⟨s, hs⟩ := rstrip_pre (l.dropWhile isPyWS)
  have hps : pyStrip l ++ s = l.dropWhile isPyWS := hs
  rw [h] at hps
  have : (l.dropWhile isPyWS).head? = some c := by
    rw [← hps]; rfl
  exact head_dropWhile_false isPyWS l c this

theorem pyStrip_last_not_ws (l : List Char) (c : Char)
    (h : (pyStrip l).getLast? = some c) : isPyWS c = false := by
  unfold pyStrip at h
  rw [List.getLast?_eq_head?_reverse, List.reverse_reverse] at h
  exact head_dropWhile_false isPyWS _ c h

theorem dropWhile_eq_self_of_head {α : Type} (p : α → Bool) (l : List α)
    (h : ∀ c, l.head? = some c → p c = false) : l.dropWhile p = l := by
  cases l with
  | nil => rfl
  | cons a t =>
    have := h a rfl
    rw [List.dropWhile_cons_of_neg (by simp [this])]

theorem pyStrip_eq_self (l : List Char)
    (hh : ∀ c, l.head? = some c → isPyWS c = false)
    (hl : ∀ c, l.getLast? = some c → isPyWS c = false) : pyStrip l = l := by
  unfold pyStrip
  rw [dropWhile_eq_self_of_head isPyWS l hh]
  rw [dropWhile_eq_self_of_head isPyWS l.reverse
    (by intro c hc; rw [List.head?_reverse] at hc; exact hl c hc)]
  exact List.reverse_reverse l

theorem ws_cases (c : Char) (h : isPyWS c = true) :
    c = ' ' ∨ c = '\t' ∨ c = '\n' ∨ c = '\r' ∨ c = '\x0b' ∨ c = '\x0c' := by
  simp only [isPyWS, Bool.or_eq_true, decide_eq_true_eq] at h
  tauto

theorem digit_not_ws (c : Char) (h : c.isDigit = true) : isPyWS c = false := by
  cases hw : isPyWS c with
  | false => rfl
  | true =>
    rcases ws_cases c hw with h1 | h1 | h1 | h1 | h1 | h1 <;>
      (subst h1; exact absurd h (by decide))

theorem class_not_ws (c : Char) (h1 : nameClass c = true) (h2 : ¬ c = ' ') :
    isPyWS c = false := by
  cases hw : isPyWS c with
  | false => rfl
  | true =>
    rcases ws_cases c hw with h | h | h | h | h | h
    · exact absurd h h2
    all_goals (subst h; exact absurd h1 (by decide))

theorem class_not_nl (c : Char) (h : nameClass c = true) : ¬ c = '\n' := by
  intro he
  subst he
  exact absurd h (by decide)

theorem grp_within (rest : List Char) (k : Nat) (g : List Char)
    (h : grp rest k = some g) : g <:+: rest := by
  cases hd : rest.drop k with
  | nil => simp [grp, hd] at h
  | cons c cs =>
    simp only [grp, hd] at h
    by_cases hc : nameClass c
    · rw [if_pos hc] at h
      have hg : g = c :: cs.takeWhile nameClass := by
        simpa using h.symm
      have h1 : c :: cs.takeWhile nameClass <+: c :: cs :=
        List.cons_prefix_cons.mpr ⟨rfl, List.takeWhile_prefix _⟩
      have h2 : rest.drop k <:+ rest := List.drop_suffix k rest
      exact hg ▸ List.IsInfix.trans ( List.IsPrefix.isInfix h1)
        (hd ▸ List.IsSuffix.isInfix h2)
    · rw [if_neg hc] at h
      exact absurd h (by simp)

theorem backtrack_within (rest : List Char) : ∀ (k : Nat) (g : List Char),
    backtrack rest k = some g → g <:+: rest := by
  intro k
  induction k with
  | zero =>
    intro g h
    unfold backtrack at h
    exact grp_within rest 0 g h
  | succ k ih =>
    intro g h
    unfold backtrack at h
    cases hg : grp rest (k + 1) with
    | some g2 =>
      rw [hg] at h
      simp only [Option.some.injEq] at h
      exact h ▸ grp_within rest (k + 1) g2 hg
    | none =>
      rw [hg] at h
      exact ih g h

theorem matchLine_within (l g : List Char) (h : matchLine l = some g) :
    g <:+: l := by
  unfold matchLine at h
  by_cases he : (l.takeWhile Char.isDigit).isEmpty
  · rw [if_pos he] at h
    exact absurd h (by simp)
  · rw [if_neg he] at h
    simp only at h
    by_cases hh : (l.dropWhile Char.isDigit).head? = some '.'
    · rw [if_pos hh] at h
      have h1 : g <:+: (l.dropWhile Char.isDigit).tail :=
        backtrack_within _ _ g h
      have h2 : (l.dropWhile Char.isDigit).tail <:+ l.dropWhile Char.isDigit :=
        List.tail_suffix _
      have h3 : l.dropWhile Char.isDigit <:+ l := List.dropWhile_suffix _
      exact List.IsInfix.trans h1
        ( List.IsSuffix.isInfix (List.IsSuffix.trans h2 h3))
    · rw [if_neg hh] at h
      exact absurd h (by simp)

theorem extractLine_within (line n : List Char)
    (h : extractLine line = some n) : n <:+: line := by
  unfold extractLine at h
  rw [Option.map_eq_some'] at h
  obtain ⟨g, hg, hn⟩ := h
  exact hn ▸ List.IsInfix.trans (pyStrip_within g)
    (List.IsInfix.trans (matchLine_within _ g hg) (pyStrip_within line))

theorem extract_within (text n : List Char) (h : n ∈ extract text) :
    n <:+: text := by
  unfold extract at h
  rw [List.mem_filterMap] at h
  obtain ⟨line, hline, hsome⟩ := h
  exact List.IsInfix.trans (extractLine_within line n hsome)
    (mem_splitNl_within text line hline)

theorem takeWhile_append_all {α : Type} (p : α → Bool) :
    ∀ (l₁ : List α) (b : α) (l₂ : List α), (∀ a ∈ l₁, p a = true) →
    p b = false → (l₁ ++ b :: l₂).takeWhile p = l₁ := by
  intro l₁
  induction l₁ with
  | nil =>
    intro b l₂ _ hb
    have hb2 : ¬ p b = true := by simp [hb]
    rw [List.nil_append, List.takeWhile_cons_of_neg hb2]
  | cons a t ih =>
    intro b l₂ h hb
    rw [List.cons_append,
      List.takeWhile_cons_of_pos (h a (List.mem_cons_self a t)),
      ih b l₂ (fun x hx => h x (List.mem_cons_of_mem a hx)) hb]

theorem dropWhile_append_all {α : Type} (p : α → Bool) :
    ∀ (l₁ : List α) (b : α) (l₂ : List α), (∀ a ∈ l₁, p a = true) →
    p b = false → (l₁ ++ b :: l₂).dropWhile p = b :: l₂ := by
  intro l₁
  induction l₁ with
  | nil =>
    intro b l₂ _ hb
    have hb2 : ¬ p b = true := by simp [hb]
    rw [List.nil_append, List.dropWhile_cons_of_neg hb2]
  | cons a t ih =>
    intro b l₂ h hb
    rw [List.cons_append,
      List.dropWhile_cons_of_pos (h a (List.mem_cons_self a t)),
      ih b l₂ (fun x hx => h x (List.mem_cons_of_mem a hx)) hb]

theorem takeWhile_all {α : Type} (p : α → Bool) :
    ∀ l : List α, (∀ a ∈ l, p a = true) → l.takeWhile p = l := by
  intro l
  induction l with
  | nil => intro _; rfl
  | cons a t ih =>
    intro h
    rw [List.takeWhile_cons_of_pos (h a (List.mem_cons_self a t)),
      ih (fun x hx => h x (List.mem_cons_of_mem a hx))]

theorem digitChar_digit (n : Nat) : (digitChar n).isDigit = true := by
  unfold digitChar
  repeat' split
  all_goals decide

theorem natCharsAux_digits : ∀ (fuel n : Nat) (acc : List Char),
    (∀ c ∈ acc, c.isDigit = true) →
    ∀ c ∈ natCharsAux fuel n acc, c.isDigit = true := by
  intro fuel
  induction fuel with
  | zero =>
    intro n acc hacc
    simpa [natCharsAux] using hacc
  | succ f ih =>
    intro n acc hacc c hc
    unfold natCharsAux at hc
    by_cases hn : n < 10
    · rw [if_pos hn] at hc
      rcases List.mem_cons.mp hc with h | h
      · exact h ▸ digitChar_digit n
      · exact hacc c h
    · rw [if_neg hn] at hc
      refine ih (n / 10) (digitChar (n % 10) :: acc) ?_ c hc
      intro x hx
      rcases List.mem_cons.mp hx with h | h
      · exact h ▸ digitChar_digit _
      · exact hacc x h

theorem natChars_digits (n : Nat) : ∀ c ∈ natChars n, c.isDigit = true :=
  natCharsAux_digits (n + 1) n [] (by intro c hc; simp at hc)

theorem natCharsAux_ne_nil : ∀ (fuel n : Nat) (acc : List Char),
    natCharsAux (fuel + 1) n acc ≠ [] := by
  intro fuel
  induction fuel with
  | zero =>
    intro n acc
    unfold natCharsAux
    by_cases hn : n < 10
    · simp [hn]
    · rw [if_neg hn]
      simp [natCharsAux]
  | succ f ih =>
    intro n acc
    unfold natCharsAux
    by_cases hn : n < 10
    · simp [hn]
    · rw [if_neg hn]
      exact ih (n / 10) _

theorem natChars_ne_nil (n : Nat) : natChars n ≠ [] :=
  natCharsAux_ne_nil n n []

theorem grp_class (rest : List Char) (k : Nat) (g : List Char)
    (h : grp rest k = some g) : ∀ c ∈ g, nameClass c = true := by
  cases hd : rest.drop k with
  | nil => simp [grp, hd] at h
  | cons c cs =>
    simp only [grp, hd] at h
    by_cases hc : nameClass c
    · rw [if_pos hc] at h
      have hg : g = c :: cs.takeWhile nameClass := by simpa using h.symm
      subst hg
      intro x hx
      rcases List.mem_cons.mp hx with h1 | h1
      · exact h1 ▸ hc
      · exact List.mem_takeWhile_imp h1
    · rw [if_neg hc] at h
      exact absurd h (by simp)

theorem backtrack_class (rest : List Char) : ∀ (k : Nat) (g : List Char),
    backtrack rest k = some g → ∀ c ∈ g, nameClass c = true := by
  intro k
  induction k with
  | zero =>
    intro g h
    unfold backtrack at h
    exact grp_class rest 0 g h
  | succ k ih =>
    intro g h
    unfold backtrack at h
    cases hg : grp rest (k + 1) with
    | some g2 =>
      rw [hg] at h
      simp only [Option.some.injEq] at h
      exact h ▸ grp_class rest (k + 1) g2 hg
    | none =>
      rw [hg] at h
      exact ih g h

theorem matchLine_class (l g : List Char) (h : matchLine l = some g) :
    ∀ c ∈ g, nameClass c = true := by
  unfold matchLine at h
  by_cases he : (l.takeWhile Char.isDigit).isEmpty
  · rw [if_pos he] at h
    exact absurd h (by simp)
  · rw [if_neg he] at h
    simp only at h
    by_cases hh : (l.dropWhile Char.isDigit).head? = some '.'
    · rw [if_pos hh] at h
      exact backtrack_class _ _ g h
    · rw [if_neg hh] at h
      exact absurd h (by simp)

theorem mem_pyStrip (l : List Char) (c : Char) (h : c ∈ pyStrip l) : c ∈ l :=
  List.Sublist.subset ( List.IsInfix.sublist (pyStrip_within l)) h

theorem extract_good (text n : List Char) (hmem : n ∈ extract text)
    (hne : n ≠ []) : goodName n := by
  unfold extract at hmem
  rw [List.mem_filterMap] at hmem
  obtain ⟨line, hline, hsome⟩ := hmem
  unfold extractLine at hsome
  rw [Option.map_eq_some'] at hsome
  obtain ⟨g, hg, hn⟩ := hsome
  refine ⟨hne, ?_, ?_, ?_⟩
  · intro c hc
    exact matchLine_class _ g hg c (mem_pyStrip g c (hn ▸ hc))
  · intro c hc
    subst hn
    cases hps : pyStrip g with
    | nil => rw [hps] at hc; simp at hc
    | cons a t =>
      rw [hps] at hc
      simp only [List.head?_cons, Option.some.injEq] at hc
      exact hc ▸ pyStrip_head_not_ws g a t hps
  · intro c hc
    subst hn
    exact pyStrip_last_not_ws g c hc

theorem extractLine_numbered (k : Nat) (n : List Char) (h : goodName n) :
    extractLine (natChars k ++ '.' :: ' ' :: n) = some n := by
  obtain ⟨hne, hclass, hhead, hlast⟩ := h
  obtain ⟨c0, n', rfl⟩ : ∃ c0 n', n = c0 :: n' := by
    cases n with
    | nil => exact absurd rfl hne
    | cons a b => exact ⟨a, b, rfl⟩
  have hc0 : nameClass c0 = true := hclass c0 (List.mem_cons_self _ _)
  have hc0ws : isPyWS c0 = false := hhead c0 rfl
  obtain ⟨d, ds, hnat⟩ : ∃ d ds, natChars k = d :: ds := by
    cases hnk : natChars k with
    | nil => exact absurd hnk (natChars_ne_nil k)
    | cons d ds => exact ⟨d, ds, rfl⟩
  have hdigs : ∀ c ∈ natChars k, c.isDigit = true := natChars_digits k
  have hstrip : pyStrip (natChars k ++ '.' :: ' ' :: c0 :: n') =
      natChars k ++ '.' :: ' ' :: c0 :: n' := by
    apply pyStrip_eq_self
    · intro c hc
      rw [hnat, List.cons_append] at hc
      simp only [List.head?_cons, Option.some.injEq] at hc
      subst hc
      exact digit_not_ws _ (hdigs _ (hnat ▸ List.mem_cons_self d ds))
    · intro c hc
      rw [List.getLast?_append] at hc
      simp only [List.getLast?_cons_cons] at hc
      cases hgl : (c0 :: n').getLast? with
      | none => simp [List.getLast?_eq_none_iff] at hgl
      | some x =>
        rw [hgl] at hc
        simp only [Option.or_some, Option.some.injEq] at hc
        exact hc ▸ hlast x hgl
  have ht : (natChars k ++ '.' :: ' ' :: c0 :: n').takeWhile Char.isDigit =
      natChars k :=
    takeWhile_append_all _ _ _ _ hdigs (by decide)
  have hd2 : (natChars k ++ '.' :: ' ' :: c0 :: n').dropWhile Char.isDigit =
      '.' :: ' ' :: c0 :: n' :=
    dropWhile_append_all _ _ _ _ hdigs (by decide)
  have htw : (' ' :: c0 :: n').takeWhile isPyWS = [' '] := by
    rw [List.takeWhile_cons_of_pos (by decide),
      List.takeWhile_cons_of_neg (by simp [hc0ws])]
  have hg : grp (' ' :: c0 :: n') 1 = some (c0 :: n') := by
    simp only [grp, List.drop_succ_cons, List.drop_zero]
    rw [if_pos hc0,
      takeWhile_all nameClass n' (fun x hx => hclass x (List.mem_cons_of_mem c0 hx))]
  have hm : matchLine (natChars k ++ '.' :: ' ' :: c0 :: n') =
      some (c0 :: n') := by
    unfold matchLine
    simp only [ht, hd2, List.head?_cons, List.tail_cons]
    rw [if_neg (by rw [hnat]; simp)]
    rw [if_pos trivial]
    rw [htw]
    show backtrack (' ' :: c0 :: n') 1 = some (c0 :: n')
    unfold backtrack
    rw [hg]
  unfold extractLine
  rw [hstrip, hm]
  simp only [Option.map_some', Option.some.injEq]
  exact pyStrip_eq_self _ hhead hlast

theorem splitNl_no_nl : ∀ l : List Char, '\n' ∉ l → splitNl l = [l] := by
  intro l
  induction l with
  | nil => intro _; rfl
  | cons c rest ih =>
    intro h
    have hc : ¬ c = '\n' := fun he => h (he ▸ List.mem_cons_self c rest)
    have hr := ih (fun hm => h (List.mem_cons_of_mem c hm))
    simp [splitNl, hc, hr]

theorem splitNl_append_nl : ∀ (l r : List Char), '\n' ∉ l →
    splitNl (l ++ '\n' :: r) = l :: splitNl r := by
  intro l
  induction l with
  | nil => intro r _; simp [splitNl]
  | cons c t ih =>
    intro r h
    have hc : ¬ c = '\n' := fun he => h (he ▸ List.mem_cons_self c t)
    have ht := ih r (fun hm => h (List.mem_cons_of_mem c hm))
    simp [splitNl, hc, ht]

theorem splitNl_joinNl : ∀ ls : List (List Char), ls ≠ [] →
    (∀ l ∈ ls, '\n' ∉ l) → splitNl (joinNl ls) = ls := by
  intro ls
  induction ls with
  | nil => intro h _; exact absurd rfl h
  | cons l ls ih =>
    intro _ hno
    cases ls with
    | nil =>
      rw [show joinNl [l] = l from rfl]
      exact splitNl_no_nl l (hno l (List.mem_cons_self _ _))
    | cons l2 ls2 =>
      rw [show joinNl (l :: l2 :: ls2) = l ++ '\n' :: joinNl (l2 :: ls2) from
        rfl]
      rw [splitNl_append_nl l _ (hno l (List.mem_cons_self _ _))]
      rw [ih (by simp) (fun x hx => hno x (List.mem_cons_of_mem _ hx))]

theorem numberedLines_no_nl : ∀ (ns : List (List Char)) (k : Nat),
    (∀ n ∈ ns, ∀ c ∈ n, nameClass c = true) →
    ∀ line ∈ numberedLines k ns, '\n' ∉ line := by
  intro ns
  induction ns with
  | nil =>
    intro k _ line hline
    simp [numberedLines] at hline
  | cons n ns ih =>
    intro k h line hline
    simp only [numberedLines, List.mem_cons] at hline
    rcases hline with h1 | h1
    · subst h1
      intro hmem
      rcases List.mem_append.mp hmem with h2 | h2
      · exact absurd (natChars_digits k '\n' h2) (by decide)
      · rcases List.mem_cons.mp h2 with h3 | h3
        · exact absurd h3 (by decide)
        · rcases List.mem_cons.mp h3 with h4 | h4
          · exact absurd h4 (by decide)
          · exact absurd (h n (List.mem_cons_self _ _) '\n' h4) (by decide)
    · exact ih (k + 1) (fun x hx => h x (List.mem_cons_of_mem _ hx)) line h1

theorem filterMap_numberedLines : ∀ (ns : List (List Char)) (k : Nat),
    (∀ n ∈ ns, goodName n) →
    (numberedLines k ns).filterMap extractLine = ns := by
  intro ns
  induction ns with
  | nil => intro k _; rfl
  | cons n ns ih =>
    intro k h
    simp only [numberedLines, List.filterMap_cons,
      extractLine_numbered k n (h n (List.mem_cons_self _ _))]
    exact congrArg (n :: ·) (ih (k + 1) (fun x hx => h x (List.mem_cons_of_mem _ hx)))

theorem extract_reconstruct (text : List Char)
    (h : ∀ n ∈ extract text, n ≠ []) :
    extract (reconstruct (extract text)) = extract text := by
  have hgood : ∀ n ∈ extract text, goodName n :=
    fun n hn => extract_good text n hn (h n hn)
  cases hns : extract text with
  | nil => rfl
  | cons n0 ns0 =>
    rw [hns] at hgood
    have hclass : ∀ n ∈ n0 :: ns0, ∀ c ∈ n, nameClass c = true :=
      fun n hn => (hgood n hn).2.1
    have hnn : numberedLines 1 (n0 :: ns0) ≠ [] := by
      simp [numberedLines]
    calc extract (reconstruct (n0 :: ns0))
        = (splitNl (joinNl (numberedLines 1 (n0 :: ns0)))).filterMap
            extractLine := rfl
      _ = (numberedLines 1 (n0 :: ns0)).filterMap extractLine := by
            rw [splitNl_joinNl _ hnn (numberedLines_no_nl _ 1 hclass)]
      _ = n0 :: ns0 := filterMap_numberedLines _ 1 hgood

/-- Claim C1, counterexample: on a concrete request the handler completes
every one of the three sink calls before it responds — the completion
events of all three sinks appear in the trace strictly before the respond
event, refuting the claim that the response is returned without waiting
for any sink call to finish. -/
theorem C1_counterexample :
    Ev.sinkEnd SinkId.persist ∈ beforeRespond
      (recommend_api (Except.ok emptyBody) none "2025-01-01T00:00:00+00:00"
        (fun _ => false)).trace ∧
    Ev.sinkEnd SinkId.sheet ∈ beforeRespond
      (recommend_api (Except.ok emptyBody) none "2025-01-01T00:00:00+00:00"
        (fun _ => false)).trace ∧
    Ev.sinkEnd SinkId.email ∈ beforeRespond
      (recommend_api (Except.ok emptyBody) none "2025-01-01T00:00:00+00:00"
        (fun _ => false)).trace := by
  decide

/-- Claim C1, amended: the sink fan-out is not detached. On every parsed
request the handler invokes the three sinks synchronously and in order —
persist, append, notify — and responds only after all three calls have
returned; the response payload still carries the recommendation text and
the tool names. -/
theorem C1_sync_fanout (b : JsonBody) (gen : Option String) (now : String)
    (fail : SinkId → Bool) :
    (recommend_api (.ok b) gen now fail).trace =
      [Ev.genCall, Ev.sinkStart .persist, Ev.sinkEnd .persist,
       Ev.sinkStart .sheet, Ev.sinkEnd .sheet,
       Ev.sinkStart .email, Ev.sinkEnd .email, Ev.respond] ∧
    (recommend_api (.ok b) gen now fail).response =
      .success (recommend_tools gen).text (recommend_tools gen).tools :=
  ⟨rfl, rfl⟩

/-- Claim C2, counterexample: on the input named by the spec the extractor
does not cut at the dash and does not strip emphasis markers, so the
result differs from the claimed one. -/
theorem C2_counterexample :
    extractS "1. Acme CRM - great tool\n2. **Zen** – ok" ≠
      ["Acme CRM", "Zen"] ∧
    extractS "1. Acme CRM - great tool\n2. **Zen** – ok" =
      ["Acme CRM - great tool", ""] := by
  decide

/-- Claim C2, amended: the capture class itself contains the dash-class
separators and the colon, so a captured name is a maximal run of class
characters and is not cut at a dash; markdown emphasis is not stripped —
a line whose name part opens with emphasis markers contributes the empty
string, captured from the space in front of them. Every captured name
consists of class characters only, and the named input extracts to
the full first line name followed by the empty string. -/
theorem C2_extract_semantics (text n : List Char) (h : n ∈ extract text) :
    (∀ c ∈ n, nameClass c = true) ∧
    extractS "1. Acme CRM - great tool\n2. **Zen** – ok" =
      ["Acme CRM - great tool", ""] :=
  ⟨fun c hc => by
    unfold extract at h
    rw [List.mem_filterMap] at h
    obtain ⟨line, hline, hsome⟩ := h
    unfold extractLine at hsome
    rw [Option.map_eq_some'] at hsome
    obtain ⟨g, hg, hn⟩ := hsome
    exact matchLine_class _ g hg c (mem_pyStrip g c (hn ▸ hc)),
   by decide⟩

/-- Claim C3, counterexample: a request whose body parses to a JSON object
with every field missing is answered with HTTP 200 and a success payload,
not with HTTP 500 — missing required fields are not an error path. -/
theorem C3_counterexample :
    (recommend_api (.ok emptyBody) none "2025-01-01T00:00:00+00:00"
      (fun _ => false)).httpCode = 200 ∧
    (recommend_api (.ok emptyBody) none "2025-01-01T00:00:00+00:00"
      (fun _ => false)).response =
      .success fallbackOut.text fallbackOut.tools :=
  ⟨rfl, rfl⟩

/-- Claim C3, amended: the only caller-visible error path is a body that
fails to parse as a JSON object (request.get_json or the attribute access
on its result raising); that path is HTTP 500 with status error and the
raised message. Every request whose body parses — even with all fields
missing — is answered HTTP 200 with status success, on both routes, and
the injected sink failures never change the HTTP status or the payload. -/
theorem C3_error_paths (b : JsonBody) (d : Session) (m : String)
    (gen : Option String) (now : String) (f1 f2 f3 f4 : SinkId → Bool) :
    (recommend_api (.ok b) gen now f1).httpCode = 200 ∧
    (recommend_api (.ok b) gen now f1).response =
      .success (recommend_tools gen).text (recommend_tools gen).tools ∧
    (recommend_api (.error m) gen now f2).httpCode = 500 ∧
    (recommend_api (.error m) gen now f2).response = .error m ∧
    (submit_feedback (.ok d) f3).httpCode = 200 ∧
    (submit_feedback (.ok d) f3).response =
      .success "Feedback saved successfully!" ∧
    (submit_feedback (.error m) f4).httpCode = 500 ∧
    (submit_feedback (.error m) f4).response = .error m :=
  ⟨rfl, rfl, rfl, rfl, rfl, rfl, rfl, rfl⟩

/-- Claim C4, counterexample: six matching lines produce six names — the
extractor never truncates to five. -/
theorem C4_counterexample :
    extractS "1. A\n2. B\n3. C\n4. D\n5. E\n6. F" =
      ["A", "B", "C", "D", "E", "F"] ∧
    ¬ (extractS "1. A\n2. B\n3. C\n4. D\n5. E\n6. F").length ≤ 5 := by
  decide

/-- Claim C4, amended: the extractor is the filterMap of the per-line
matcher over the split lines, so it preserves input line order, does not
deduplicate, and yields at most one name per input line — but it does not
truncate to five. It never fabricates: every extracted name occurs
contiguously in the input text. -/
theorem C4_order_no_fabrication (text n : List Char) (h : n ∈ extract text) :
    n <:+: text ∧
    extract text = (splitNl text).filterMap extractLine ∧
    (extract text).length ≤ (splitNl text).length :=
  ⟨extract_within text n h, rfl, List.length_filterMap_le _ _⟩

/-- Claim C5 (confirmed): on every generation failure — transport error,
missing response, missing text attribute, or empty stripped text —
recommend_tools returns exactly the hard-coded fallback dictionary, this
coincides with the fallback-and-ok-false branch of the spec contract, and
the recommend boundary still answers HTTP 200 with a success payload
carrying the fallback text and tools. -/
theorem C5_generation_fallback (gen : Option String) (b : JsonBody)
    (now : String) (fail : SinkId → Bool) (h : genFails gen = true) :
    recommend_tools gen = fallbackOut ∧
    generateSpec gen = (fallbackOut, false) ∧
    recommend_tools gen = (generateSpec gen).1 ∧
    (recommend_api (.ok b) gen now fail).httpCode = 200 ∧
    (recommend_api (.ok b) gen now fail).response =
      .success fallbackOut.text fallbackOut.tools := by
  cases gen with
  | none => exact ⟨rfl, rfl, rfl, rfl, rfl⟩
  | some raw =>
    have hs : pyStripS raw = "" := by
      simpa [genFails] using h
    have h1 : recommend_tools (some raw) = fallbackOut := by
      simp [recommend_tools, hs]
    have h2 : generateSpec (some raw) = (fallbackOut, false) := by
      simp [generateSpec, hs]
    refine ⟨h1, h2, by rw [h1, h2], rfl, ?_⟩
    simp [recommend_api, h1]

/-- Witness for C5 at the transport-error outcome. -/
theorem C5_generation_fallback_witness :
    genFails none = true ∧
    (recommend_tools none = fallbackOut ∧
     generateSpec none = (fallbackOut, false) ∧
     recommend_tools none = (generateSpec none).1 ∧
     (recommend_api (.ok emptyBody) none "2025-01-01T00:00:00+00:00"
       (fun _ => false)).httpCode = 200 ∧
     (recommend_api (.ok emptyBody) none "2025-01-01T00:00:00+00:00"
       (fun _ => false)).response =
       .success fallbackOut.text fallbackOut.tools) :=
  ⟨rfl, C5_generation_fallback none emptyBody "2025-01-01T00:00:00+00:00"
    (fun _ => false) rfl⟩

/-- Claim C6 (confirmed): each sink catches every exception of its own
body, so the fan-out always runs to completion — its trace always records
the start and the return of all three calls, in order — an injected
failure in a sink surfaces only as a locally logged result, and every
sink whose own call does not fail completes with its normal effect,
regardless of the failures injected into the others. -/
theorem C6_sink_isolation (d : Session) (fail : SinkId → Bool)
    (hu : d.user.isSome = true) (hp : d.problem.isSome = true)
    (hc : d.createdAt.isSome = true) :
    (fanout d fail).trace =
      [Ev.sinkStart .persist, Ev.sinkEnd .persist,
       Ev.sinkStart .sheet, Ev.sinkEnd .sheet,
       Ev.sinkStart .email, Ev.sinkEnd .email] ∧
    (fail .persist = true → ∃ m, (fanout d fail).persistRes = .logged m) ∧
    (fail .persist = false → ∃ s, (fanout d fail).persistRes = .done s) ∧
    (fail .sheet = true → ∃ m, (fanout d fail).sheetRes = .logged m) ∧
    (fail .sheet = false → ∃ r, (fanout d fail).sheetRes = .done r) ∧
    (fail .email = true → ∃ m, (fanout d fail).emailRes = .logged m) ∧
    (fail .email = false → ∃ e, (fanout d fail).emailRes = .done e) := by
  obtain ⟨u, hu2⟩ := Option.isSome_iff_exists.mp hu
  obtain ⟨p, hp2⟩ := Option.isSome_iff_exists.mp hp
  obtain ⟨c, hc2⟩ := Option.isSome_iff_exists.mp hc
  refine ⟨rfl, ?_, ?_, ?_, ?_, ?_, ?_⟩ <;> intro hf
  · exact ⟨"Firestore save failed",
      by simp [fanout, save_to_firestore, runSink, persistBody, hf]⟩
  · exact ⟨d, by simp [fanout, save_to_firestore, runSink, persistBody, hf]⟩
  · cases hres : (fanout d fail).sheetRes with
    | logged m => exact ⟨m, rfl⟩
    | done r =>
      simp [fanout, append_to_sheet, runSink, sheetBody, sheetRow,
        hu2, hf] at hres
  · cases hres : (fanout d fail).sheetRes with
    | done r => exact ⟨r, rfl⟩
    | logged m =>
      simp [fanout, append_to_sheet, runSink, sheetBody, sheetRow,
        hu2, hf] at hres
  · exact ⟨"Email alert failed", by simp [fanout, send_admin_alert, runSink,
      emailBody, hu2, hp2, hc2, hf]⟩
  · cases hres : (fanout d fail).emailRes with
    | done e => exact ⟨e, rfl⟩
    | logged m =>
      simp [fanout, send_admin_alert, runSink, emailBody,
        hu2, hp2, hc2, hf] at hres

/-- Witness for C6 on a fully populated session with the failure injected
into the spreadsheet sink only: the other two complete. -/
theorem C6_sink_isolation_witness :
    sampleSession.user.isSome = true ∧
    sampleSession.problem.isSome = true ∧
    sampleSession.createdAt.isSome = true ∧
    ((fanout sampleSession (fun j => decide (j = SinkId.sheet))).trace =
      [Ev.sinkStart .persist, Ev.sinkEnd .persist,
       Ev.sinkStart .sheet, Ev.sinkEnd .sheet,
       Ev.sinkStart .email, Ev.sinkEnd .email] ∧
     ((fun j => decide (j = SinkId.sheet)) SinkId.persist = true →
       ∃ m, (fanout sampleSession
         (fun j => decide (j = SinkId.sheet))).persistRes = .logged m) ∧
     ((fun j => decide (j = SinkId.sheet)) SinkId.persist = false →
       ∃ s, (fanout sampleSession
         (fun j => decide (j = SinkId.sheet))).persistRes = .done s) ∧
     ((fun j => decide (j = SinkId.sheet)) SinkId.sheet = true →
       ∃ m, (fanout sampleSession
         (fun j => decide (j = SinkId.sheet))).sheetRes = .logged m) ∧
     ((fun j => decide (j = SinkId.sheet)) SinkId.sheet = false →
       ∃ r, (fanout sampleSession
         (fun j => decide (j = SinkId.sheet))).sheetRes = .done r) ∧
     ((fun j => decide (j = SinkId.sheet)) SinkId.email = true →
       ∃ m, (fanout sampleSession
         (fun j => decide (j = SinkId.sheet))).emailRes = .logged m) ∧
     ((fun j => decide (j = SinkId.sheet)) SinkId.email = false →
       ∃ e, (fanout sampleSession
         (fun j => decide (j = SinkId.sheet))).emailRes = .done e)) :=
  ⟨rfl, rfl, rfl,
   C6_sink_isolation sampleSession (fun j => decide (j = SinkId.sheet))
     rfl rfl rfl⟩

/-- Claim C7 (confirmed): for every session whose user entry is present,
the appended row has exactly the eleven cells in the fixed order name,
email, company size, budget, problem, comma-joined selected tools,
recommendations truncated to 500 characters, rating, feedback, creation
timestamp, status; with selected tools A and B the sixth cell is the
string A comma space B. -/
theorem C7_sheet_row (d : Session) (u : User) (h : d.user = some u) :
    ∃ r, sheetRow d = some r ∧
      r = [Cell.str u.name,
           Cell.str u.email,
           Cell.str u.company_size,
           Cell.str (u.budget.getD ""),
           Cell.str (d.problem.getD ""),
           Cell.str (String.intercalate ", " (d.selected_tools.getD [])),
           Cell.str (truncate500 (d.recommendations.getD "")),
           ratingCell d.rating,
           Cell.str (d.user_feedback.getD ""),
           Cell.str (d.createdAt.getD ""),
           Cell.str (d.status.getD "Pending Consultation")] ∧
      r.length = 11 ∧
      r[5]? = some (Cell.str
        (String.intercalate ", " (d.selected_tools.getD []))) ∧
      (d.selected_tools = some ["A", "B"] →
        r[5]? = some (Cell.str "A, B")) := by
  refine ⟨_, by simp only [sheetRow, h], rfl, rfl, rfl, ?_⟩
  intro ht
  rw [ht]
  rfl

/-- Witness for C7 on the sample session, whose selected tools are A and
B. -/
theorem C7_sheet_row_witness :
    sampleSession.user = some { name := "Ada", email := "ada@example.com",
                                company_size := "SMB",
                                budget := some "100" } ∧
    (∃ r, sheetRow sampleSession = some r ∧
      r = [Cell.str "Ada",
           Cell.str "ada@example.com",
           Cell.str "SMB",
           Cell.str "100",
           Cell.str "tracking leads",
           Cell.str "A, B",
           Cell.str "1. Acme CRM - great tool",
           Cell.nat 4,
           Cell.str "nice",
           Cell.str "2025-10-24T17:00:00Z",
           Cell.str "Pending Consultation"] ∧
      r.length = 11 ∧
      r[5]? = some (Cell.str "A, B") ∧
      (sampleSession.selected_tools = some ["A", "B"] →
        r[5]? = some (Cell.str "A, B"))) :=
  ⟨rfl, C7_sheet_row sampleSession
    { name := "Ada", email := "ada@example.com",
      company_size := "SMB", budget := some "100" } rfl⟩

/-- Claim C8, counterexample: a line whose name part opens with an
emphasis marker makes the extractor capture the lone space, which strips
to the empty string; the numbered reconstruction of that empty name
re-extracts to nothing, so the extractor is not idempotent on its own
output. -/
theorem C8_counterexample :
    extractS "1. *x" = [""] ∧
    extractS (reconstructS (extractS "1. *x")) = [] ∧
    extractS (reconstructS (extractS "1. *x")) ≠ extractS "1. *x" := by
  decide

/-- Claim C8, amended: the extractor is idempotent on its own output
whenever no extracted name is empty — re-extracting the newline-joined,
numbered reconstruction of the extracted list returns the same list. -/
theorem C8_idempotent (text : List Char)
    (h : ∀ n ∈ extract text, n ≠ []) :
    extract (reconstruct (extract text)) = extract text :=
  extract_reconstruct text h

/-- Witness for C8 on a two-name extraction. -/
theorem C8_idempotent_witness :
    (∀ n ∈ extract ("1. Asana\n2. Zoho Projects").data, n ≠ []) ∧
    extract (reconstruct (extract ("1. Asana\n2. Zoho Projects").data)) =
      extract ("1. Asana\n2. Zoho Projects").data :=
  ⟨by decide, C8_idempotent ("1. Asana\n2. Zoho Projects").data (by decide)⟩

/-- Claim C9 (confirmed): when no line of the input matches the
numbered-line pattern the extractor returns the empty list — it is the
filterMap of a total function, so it never raises — and the concrete
input named by the spec extracts to the empty list. -/
theorem C9_no_match (text : List Char)
    (h : ∀ line ∈ splitNl text, extractLine line = none) :
    extract text = [] ∧ extractS "no structured content here" = [] :=
  ⟨by unfold extract; exact List.filterMap_eq_nil_iff.mpr h, by decide⟩

/-- Witness for C9 on the concrete unstructured input. -/
theorem C9_no_match_witness :
    (∀ line ∈ splitNl ("no structured content here").data,
      extractLine line = none) ∧
    (extract ("no structured content here").data = [] ∧
     extractS "no structured content here" = []) :=
  ⟨by decide, C9_no_match ("no structured content here").data (by decide)⟩

/-- Claim C10 (confirmed): the session record built by the recommend
handler — whether generation succeeded or fell back — always carries
empty selected tools, rating zero, empty feedback, status Pending
Consultation, and a recommendations field identical to the
recommendations string of the response payload; the record handed to the
three sinks is exactly that session. -/
theorem C10_session_payload (b : JsonBody) (gen : Option String)
    (now : String) (fail : SinkId → Bool) :
    (recommend_api (.ok b) gen now fail).session =
      some (buildSession b (recommend_tools gen) now) ∧
    (buildSession b (recommend_tools gen) now).selected_tools = some [] ∧
    (buildSession b (recommend_tools gen) now).rating = some 0 ∧
    (buildSession b (recommend_tools gen) now).user_feedback = some "" ∧
    (buildSession b (recommend_tools gen) now).status =
      some "Pending Consultation" ∧
    (buildSession b (recommend_tools gen) now).recommendations =
      some (recommend_tools gen).text ∧
    (recommend_api (.ok b) gen now fail).response =
      .success (recommend_tools gen).text (recommend_tools gen).tools ∧
    (recommend_api (.ok b) gen now fail).sinks =
      some (fanout (buildSession b (recommend_tools gen) now) fail) :=
  ⟨rfl, rfl, rfl, rfl, rfl, rfl, rfl, rfl⟩

/-- Witness for C2 at the first name of the named input. -/
theorem C2_extract_semantics_witness :
    ("Acme CRM - great tool").data ∈
      extract ("1. Acme CRM - great tool\n2. **Zen** – ok").data ∧
    ((∀ c ∈ ("Acme CRM - great tool").data, nameClass c = true) ∧
     extractS "1. Acme CRM - great tool\n2. **Zen** – ok" =
       ["Acme CRM - great tool", ""]) :=
  ⟨by decide, C2_extract_semantics
    ("1. Acme CRM - great tool\n2. **Zen** – ok").data
    ("Acme CRM - great tool").data (by decide)⟩

/-- Witness for C4 at a two-line input. -/
theorem C4_order_no_fabrication_witness :
    ("A").data ∈ extract ("1. A\n2. B").data ∧
    (("A").data <:+: ("1. A\n2. B").data ∧
     extract ("1. A\n2. B").data =
       (splitNl ("1. A\n2. B").data).filterMap extractLine ∧
     (extract ("1. A\n2. B").data).length ≤
       (splitNl ("1. A\n2. B").data).length) :=
  ⟨by decide, C4_order_no_fabrication ("1. A\n2. B").data ("A").data
    (by decide)⟩
